import Mathlib

/-!
Verification of the core decision logic of the order-flow / CV stream-detection
repository.  The Python sources are shallowly embedded:

* `image_comparison_app.py` : `compare_images` (Template Match Scorer),
  with OpenCV `matchTemplate` modelled by its documented real-valued formulas
  (`TM_SQDIFF_NORMED`, `TM_CCOEFF_NORMED`, `TM_CCORR_NORMED`), `minMaxLoc` by a
  first-occurrence scan, and the `cv2.imread` results by `Option`.
* `video_streaming_app.py` : the final garment decision of
  `TShirtDetector.detect_t_shirt`, `_classify_design_type`,
  `find_matching_order`, `detect_shirt_color` and
  `_detect_dominant_color_from_mask`.

Machine floats are modelled by exact arithmetic (`ℝ` for the matching pipeline,
`ℚ` for the streaming pipeline); `uint8` pixel data by `ℕ`.  A Python function
that can raise inside the blanket `try/except` handlers is modelled by an
explicit failure constructor.
-/

namespace StreamDetection

/-- A decoded BGR color image (`cv2.imread` result); pixel access is total,
out-of-range reads are never used by in-range computations. -/
structure ColorImg where
  h : Nat
  w : Nat
  b : Nat → Nat → Nat
  g : Nat → Nat → Nat
  r : Nat → Nat → Nat

/-- A single-channel (grayscale) image. -/
structure GrayImg where
  h : Nat
  w : Nat
  pix : Nat → Nat → Nat

/-- `cv2.cvtColor(img, cv2.COLOR_BGR2GRAY)`: OpenCV's fixed-point luma
transform `Y = (B*1868 + G*9617 + R*4899 + 2^13) >> 14`. -/
def cvtColorBGR2GRAY (im : ColorImg) : GrayImg :=
  { h := im.h, w := im.w,
    pix := fun i j => (1868 * im.b i j + 9617 * im.g i j + 4899 * im.r i j + 8192) / 16384 }

/-- `np.array_equal` on two grayscale arrays: same shape and the same value at
every in-range index. -/
def arrayEqual (a c : GrayImg) : Prop :=
  a.h = c.h ∧ a.w = c.w ∧ ∀ i < a.h, ∀ j < a.w, a.pix i j = c.pix i j

instance (a c : GrayImg) : Decidable (arrayEqual a c) :=
  inferInstanceAs (Decidable (a.h = c.h ∧ a.w = c.w ∧ ∀ i < a.h, ∀ j < a.w, a.pix i j = c.pix i j))

/-- The three matching methods tried by `compare_images`, in loop order. -/
inductive TMMethod where
  | tm_sqdiff_normed
  | tm_ccoeff_normed
  | tm_ccorr_normed
deriving DecidableEq, Repr

/-- Valid template positions `(x, y)` for `cv2.matchTemplate`, in OpenCV's
row-major scan order (the order `minMaxLoc` visits the result matrix). -/
def tmPositions (searchImg tmpl : GrayImg) : List (Nat × Nat) :=
  (List.range (searchImg.h - tmpl.h + 1)).flatMap
    (fun y => (List.range (searchImg.w - tmpl.w + 1)).map (fun x => (x, y)))

/-- Sum of `f i j` over the template-shaped window `0 ≤ i < hh`, `0 ≤ j < ww`. -/
noncomputable def sum2 (hh ww : Nat) (f : Nat → Nat → ℝ) : ℝ :=
  ∑ p ∈ Finset.range hh ×ˢ Finset.range ww, f p.1 p.2

/-- `TM_SQDIFF_NORMED` result value at position `(x, y)`:
`Σ (T − I)² / sqrt (Σ T² · Σ I²)`. -/
noncomputable def tmSqdiffNormedAt (searchImg tmpl : GrayImg) (x y : Nat) : ℝ :=
  sum2 tmpl.h tmpl.w (fun i j => ((tmpl.pix i j : ℝ) - (searchImg.pix (y + i) (x + j) : ℝ)) ^ 2) /
    Real.sqrt (sum2 tmpl.h tmpl.w (fun i j => (tmpl.pix i j : ℝ) ^ 2) *
      sum2 tmpl.h tmpl.w (fun i j => (searchImg.pix (y + i) (x + j) : ℝ) ^ 2))

/-- `TM_CCORR_NORMED` result value at position `(x, y)`:
`Σ T·I / sqrt (Σ T² · Σ I²)`. -/
noncomputable def tmCcorrNormedAt (searchImg tmpl : GrayImg) (x y : Nat) : ℝ :=
  sum2 tmpl.h tmpl.w (fun i j => (tmpl.pix i j : ℝ) * (searchImg.pix (y + i) (x + j) : ℝ)) /
    Real.sqrt (sum2 tmpl.h tmpl.w (fun i j => (tmpl.pix i j : ℝ) ^ 2) *
      sum2 tmpl.h tmpl.w (fun i j => (searchImg.pix (y + i) (x + j) : ℝ) ^ 2))

/-- Mean of the template pixels. -/
noncomputable def tmplMean (tmpl : GrayImg) : ℝ :=
  sum2 tmpl.h tmpl.w (fun i j => (tmpl.pix i j : ℝ)) / (tmpl.h * tmpl.w : ℕ)

/-- Mean of the search-image window of template shape at `(x, y)`. -/
noncomputable def windowMean (searchImg : GrayImg) (hh ww x y : Nat) : ℝ :=
  sum2 hh ww (fun i j => (searchImg.pix (y + i) (x + j) : ℝ)) / (hh * ww : ℕ)

/-- `TM_CCOEFF_NORMED` result value at position `(x, y)`: the `TM_CCORR_NORMED`
formula applied to the mean-centered template and window. -/
noncomputable def tmCcoeffNormedAt (searchImg tmpl : GrayImg) (x y : Nat) : ℝ :=
  sum2 tmpl.h tmpl.w
      (fun i j => ((tmpl.pix i j : ℝ) - tmplMean tmpl) *
        ((searchImg.pix (y + i) (x + j) : ℝ) - windowMean searchImg tmpl.h tmpl.w x y)) /
    Real.sqrt (sum2 tmpl.h tmpl.w (fun i j => ((tmpl.pix i j : ℝ) - tmplMean tmpl) ^ 2) *
      sum2 tmpl.h tmpl.w
        (fun i j => ((searchImg.pix (y + i) (x + j) : ℝ) - windowMean searchImg tmpl.h tmpl.w x y) ^ 2))

/-- `cv2.matchTemplate(search_gray, template_gray, method)` value at one
position of the result matrix. -/
noncomputable def tmResultAt (m : TMMethod) (searchImg tmpl : GrayImg) (p : Nat × Nat) : ℝ :=
  match m with
  | .tm_sqdiff_normed => tmSqdiffNormedAt searchImg tmpl p.1 p.2
  | .tm_ccoeff_normed => tmCcoeffNormedAt searchImg tmpl p.1 p.2
  | .tm_ccorr_normed => tmCcorrNormedAt searchImg tmpl p.1 p.2

/-- Left scan keeping the first strictly smaller value (`cv2.minMaxLoc`
keeps the first occurrence of the minimum). -/
noncomputable def scanMin (f : Nat × Nat → ℝ) : (Nat × Nat) × ℝ → List (Nat × Nat) → (Nat × Nat) × ℝ
  | best, [] => best
  | best, p :: ps => scanMin f (if f p < best.2 then (p, f p) else best) ps

/-- Left scan keeping the first strictly larger value. -/
noncomputable def scanMax (f : Nat × Nat → ℝ) : (Nat × Nat) × ℝ → List (Nat × Nat) → (Nat × Nat) × ℝ
  | best, [] => best
  | best, p :: ps => scanMax f (if f p > best.2 then (p, f p) else best) ps

/-- `cv2.minMaxLoc` over the result matrix, listed in scan order:
`(min_val, max_val, min_loc, max_loc)`.  The empty case is never reached
(`tmPositions` is structurally nonempty). -/
noncomputable def minMaxLoc (f : Nat × Nat → ℝ) : List (Nat × Nat) → ℝ × ℝ × (Nat × Nat) × (Nat × Nat)
  | [] => (0, 0, (0, 0), (0, 0))
  | p :: ps => ((scanMin f (p, f p) ps).2, (scanMax f (p, f p) ps).2,
      (scanMin f (p, f p) ps).1, (scanMax f (p, f p) ps).1)

/-- Per-method confidence and match location: for `TM_SQDIFF_NORMED` the code
uses `1.0 - min_val` and `min_loc`; otherwise `max_val` and `max_loc`. -/
noncomputable def methodConfLoc (m : TMMethod) (searchImg tmpl : GrayImg) : ℝ × (Nat × Nat) :=
  match m with
  | .tm_sqdiff_normed =>
    (1 - (minMaxLoc (tmResultAt m searchImg tmpl) (tmPositions searchImg tmpl)).1,
      (minMaxLoc (tmResultAt m searchImg tmpl) (tmPositions searchImg tmpl)).2.2.1)
  | _ =>
    ((minMaxLoc (tmResultAt m searchImg tmpl) (tmPositions searchImg tmpl)).2.1,
      (minMaxLoc (tmResultAt m searchImg tmpl) (tmPositions searchImg tmpl)).2.2.2)

/-- The loop state `best_confidence` / `best_method` / `best_location`. -/
structure BestState where
  conf : ℝ
  method : Option TMMethod
  loc : Option (Nat × Nat)

/-- The method list tried by the loop, in source order. -/
def methodsList : List TMMethod := [.tm_sqdiff_normed, .tm_ccoeff_normed, .tm_ccorr_normed]

/-- One iteration of the matching loop: update the best state when this
method's confidence is strictly better. -/
noncomputable def methodStep (searchImg tmpl : GrayImg) (best : BestState) (m : TMMethod) : BestState :=
  if (methodConfLoc m searchImg tmpl).1 > best.conf then
    { conf := (methodConfLoc m searchImg tmpl).1, method := some m,
      loc := some (methodConfLoc m searchImg tmpl).2 }
  else best

/-- The whole matching loop, started from
`best_confidence = 0`, `best_method = None`, `best_location = None`. -/
noncomputable def runMethods (searchImg tmpl : GrayImg) : BestState :=
  methodsList.foldl (methodStep searchImg tmpl) { conf := 0, method := none, loc := none }

/-- `size_ratio = (h * w) / (search_h * search_w)`. -/
noncomputable def size_ratio_of (tg sg : GrayImg) : ℝ :=
  ((tg.h * tg.w : ℕ) : ℝ) / ((sg.h * sg.w : ℕ) : ℝ)

/-- The confidence adjustment applied after the loop (lines 137-158 of
`image_comparison_app.py`), as a function of the grayscale dimensions, the raw
best confidence and the size ratio. -/
noncomputable def adjustConfidence (hT wT hS wS : Nat) (best_confidence sr : ℝ) : ℝ :=
  if hT = hS ∧ wT = wS ∧ best_confidence > 0.95 then 1
  else if hT = hS ∧ wT = wS ∧ best_confidence > 0.8 then min 0.98 (best_confidence * 1.1)
  else if sr > 0.8 then
    (if sr > 1.0 then best_confidence * 0.5 else best_confidence)
  else if sr < 0.01 then best_confidence * 0.8
  else best_confidence

/-- The quality-label ladder (lines 180-192 of `image_comparison_app.py`). -/
noncomputable def matchQualityLabel (c : ℝ) : String :=
  if c ≥ 0.99 then "Perfect Match"
  else if c ≥ 0.8 then "Excellent Match"
  else if c ≥ 0.6 then "Good Match"
  else if c ≥ 0.4 then "Moderate Match"
  else if c ≥ 0.2 then "Weak Match"
  else "No Significant Match"

/-- `str(best_method)` over the OpenCV integer constants
(`TM_SQDIFF_NORMED = 1`, `TM_CCORR_NORMED = 3`, `TM_CCOEFF_NORMED = 5`). -/
def tmMethodStr : Option TMMethod → String
  | none => "None"
  | some TMMethod.tm_sqdiff_normed => "1"
  | some TMMethod.tm_ccoeff_normed => "5"
  | some TMMethod.tm_ccorr_normed => "3"

/-- The success payload of `compare_images`. -/
structure MatchOk where
  confidence : ℝ
  match_quality : String
  template_size : Nat × Nat
  search_image_size : Nat × Nat
  match_location : Nat × Nat
  method_used : String
  size_ratio : ℝ

/-- Result of `compare_images`: `{'success': True, ...}` or
`{'success': False, 'error': ...}`. -/
inductive CompareResult where
  | ok (res : MatchOk)
  | failure (error : String)

/-- `compare_images(template_path, search_image_path)`.  `Option` models
`cv2.imread` returning `None`.  A template strictly larger than the search
image makes the first `cv2.matchTemplate` call raise; the too-large check and
the `best_location = None` annotation crash both surface as the blanket
`except` branch returning a failure payload. -/
noncomputable def compare_images : Option ColorImg → Option ColorImg → CompareResult
  | none, _ => .failure "Failed to read one or both images"
  | some _, none => .failure "Failed to read one or both images"
  | some template, some search_image =>
    let template_gray := cvtColorBGR2GRAY template
    let search_gray := cvtColorBGR2GRAY search_image
    if template_gray.h = search_gray.h ∧ template_gray.w = search_gray.w ∧
        arrayEqual template_gray search_gray then
      .ok { confidence := 1, match_quality := "Perfect Match (Identical Images)",
            template_size := (template_gray.w, template_gray.h),
            search_image_size := (search_gray.w, search_gray.h),
            match_location := (0, 0), method_used := "Direct Comparison", size_ratio := 1 }
    else if ¬ (template_gray.h ≤ search_gray.h ∧ template_gray.w ≤ search_gray.w) then
      .failure "cv2 error: templ size must fit the search image"
    else
      let best := runMethods search_gray template_gray
      let sr := size_ratio_of template_gray search_gray
      let confidence_score :=
        adjustConfidence template_gray.h template_gray.w search_gray.h search_gray.w best.conf sr
      match best.loc with
      | none => .failure "TypeError: NoneType is not subscriptable"
      | some loc =>
        .ok { confidence := confidence_score,
              match_quality := matchQualityLabel confidence_score,
              template_size := (template_gray.w, template_gray.h),
              search_image_size := (search_gray.w, search_gray.h),
              match_location := loc, method_used := tmMethodStr best.method,
              size_ratio := sr }

/-! ### Streaming pipeline (`video_streaming_app.py`) -/

/-- A single-channel mask (`np.uint8` array); membership is `pix > 0`. -/
structure Mask where
  h : Nat
  w : Nat
  pix : Nat → Nat → Nat

/-- `np.sum(mask > 0)`: the number of in-range nonzero pixels. -/
def countNonZero (m : Mask) : Nat :=
  ((Finset.range m.h ×ˢ Finset.range m.w).filter (fun p => 0 < m.pix p.1 p.2)).card

/-- `np.zeros(frame.shape[:2], dtype=np.uint8)`. -/
def zeroMask (hh ww : Nat) : Mask := { h := hh, w := ww, pix := fun _ _ => 0 }

/-- `cv2.bitwise_or` of two same-shaped masks. -/
def bitwiseOrMask (a c : Mask) : Mask :=
  { h := a.h, w := a.w, pix := fun i j => Nat.lor (a.pix i j) (c.pix i j) }

/-- The tail of `TShirtDetector.detect_t_shirt` (lines 145-169): union the
region masks that pass `_is_valid_t_shirt_region` into `t_shirt_mask`, then
classify the frame as containing a garment iff the nonzero-pixel ratio of that
mask strictly exceeds `0.02`.  The upstream contour extraction and grouping
(OpenCV calls) are abstracted into the `groupedRegionMasks` input, and the
validator `_is_valid_t_shirt_region` (itself built on `cv2.findContours`) into
the `isValidRegion` input. -/
def detect_t_shirt_decision (frameH frameW : Nat) (groupedRegionMasks : List Mask)
    (isValidRegion : Mask → Bool) : Bool × Mask :=
  let t_shirt_mask := groupedRegionMasks.foldl
    (fun acc rm => if isValidRegion rm then bitwiseOrMask acc rm else acc)
    (zeroMask frameH frameW)
  let t_shirt_pixels := countNonZero t_shirt_mask
  let total_pixels := frameH * frameW
  (decide ((t_shirt_pixels : ℚ) / (total_pixels : ℚ) > 0.02), t_shirt_mask)

/-- `TShirtDetector._classify_design_type` (lines 436-472).  The body is pure
arithmetic, so the `except` fallback to `"Unknown"` is unreachable. -/
def classify_design_type (feature_count design_contours text_elements : Nat)
    (edge_density : ℚ) : String :=
  let complexity_score : ℚ := (feature_count : ℚ) * 0.3 + (design_contours : ℚ) * 0.3 +
    (text_elements : ℚ) * 0.2 + edge_density * 1000 * 0.2
  if text_elements ≤ 3 ∧ design_contours ≤ 2 ∧ feature_count < 100 ∧ complexity_score < 50 then
    "Plain"
  else if text_elements > 5 then
    if design_contours > 3 then "Text with Graphics" else "Text Only"
  else if design_contours > 8 then
    if text_elements > 3 then "Graphics with Text" else "Graphics Only"
  else if feature_count > 200 then "Complex Design"
  else if complexity_score > 100 then "Moderate Design"
  else if complexity_score > 50 then "Simple Design"
  else "Plain"

/-- Modelled from the spec wording of claim C6: the nine-rule first-match-wins
decision list with `composite = 0.3*k + 0.3*c + 0.2*t + 0.2*(edge_density*1000)`,
to be compared against `classify_design_type`. -/
def classifyDesignTypeSpec (k c t : Nat) (ed : ℚ) : String :=
  let composite : ℚ := 0.3 * (k : ℚ) + 0.3 * (c : ℚ) + 0.2 * (t : ℚ) + 0.2 * (ed * 1000)
  if t ≤ 3 ∧ c ≤ 2 ∧ k < 100 ∧ composite < 50 then "Plain"
  else if t > 5 ∧ c > 3 then "Text with Graphics"
  else if t > 5 then "Text Only"
  else if c > 8 ∧ t > 3 then "Graphics with Text"
  else if c > 8 then "Graphics Only"
  else if k > 200 then "Complex Design"
  else if composite > 100 then "Moderate Design"
  else if composite > 50 then "Simple Design"
  else "Plain"

/-- Modelled from the spec wording of claim C3: the confidence-adjustment
priority order (identical snap, same-dimension boost, then the plain
size-ratio cases), to be compared against `adjustConfidence`. -/
noncomputable def adjustConfidenceSpec (hT wT hS wS : Nat) (raw sr : ℝ) : ℝ :=
  if hT = hS ∧ wT = wS ∧ raw > 0.95 then 1
  else if hT = hS ∧ wT = wS ∧ raw > 0.8 then min 0.98 (raw * 1.1)
  else if sr > 1.0 then raw * 0.5
  else if sr < 0.01 then raw * 0.8
  else raw

/-- A pending order as consumed by `find_matching_order`: only the declared
color is read; the id keeps distinct orders distinguishable. -/
structure PendingOrder where
  orderItemId : Nat
  color : String
deriving DecidableEq, Repr

/-- The design-features dictionary produced by `extract_design_features`. -/
structure DesignFeatures where
  feature_count : Nat
  design_contours : Nat
  text_elements : Nat
  edge_density : ℚ
  overall_complexity : ℚ
  design_type : String
deriving DecidableEq, Repr

/-- Python `str.lower()` (ASCII case folding suffices for the color names). -/
def pyLower (s : String) : String := String.mk (s.data.map Char.toLower)

/-- Color part of the per-order score: `+50` on a case-insensitive match,
else `+10` when the detected color is `'unknown'`. -/
def colorScore (order : PendingOrder) (detected_color : String) : ℚ :=
  if pyLower order.color = pyLower detected_color then 50
  else if detected_color = "unknown" then 10
  else 0

/-- Design part of the per-order score: the `design_type != 'Plain'` block of
`find_matching_order` (base 20, type bonus, complexity bonus, text bonus,
contour bonus). -/
def designScore (df : DesignFeatures) : ℚ :=
  if df.design_type ≠ "Plain" then
    20 +
    (if df.design_type = "Text Only" then 15
     else if df.design_type = "Graphics Only" then 20
     else if df.design_type = "Text with Graphics" then 25
     else if df.design_type = "Graphics with Text" then 25
     else if df.design_type = "Complex Design" then 30
     else 0) +
    (if df.overall_complexity > 100 then 15
     else if df.overall_complexity > 50 then 10
     else 0) +
    (if df.text_elements > 3 then 10 else 0) +
    (if df.design_contours > 5 then 10 else 0)
  else 0

/-- Legacy feature part of the per-order score:
`min(feature_count / 100, 20)` when `feature_count > 0`. -/
def featureScore (df : DesignFeatures) : ℚ :=
  if df.feature_count > 0 then min ((df.feature_count : ℚ) / 100) 20 else 0

/-- The complete per-order score accumulated by `find_matching_order`
(lines 483-526). -/
def orderScore (order : PendingOrder) (detected_color : String) (df : DesignFeatures) : ℚ :=
  colorScore order detected_color + designScore df + featureScore df

/-- One iteration of the matching loop: keep the strictly better score. -/
def matchStep (detected_color : String) (df : DesignFeatures)
    (acc : Option PendingOrder × ℚ) (order : PendingOrder) : Option PendingOrder × ℚ :=
  if orderScore order detected_color df > acc.2 then
    (some order, orderScore order detected_color df)
  else acc

/-- `TShirtDetector.find_matching_order` (lines 474-537).  `detected_color` is
`Option`-valued because `detect_shirt_color` can return `None`; in that case
the first `detected_color.lower()` raises `AttributeError`, which the blanket
handler converts to `None` (no match) whenever the order list is nonempty. -/
def find_matching_order (pending_orders : List PendingOrder)
    (detected_color : Option String) (df : DesignFeatures) : Option PendingOrder :=
  if pending_orders.isEmpty then none
  else
    match detected_color with
    | none => none
    | some c =>
      let best := pending_orders.foldl (matchStep c df) (none, 0)
      if best.2 > 25 then best.1 else none

/-- The HSV color boxes of `TShirtDetector.color_ranges`, in insertion order. -/
def colorRanges : List (String × (Nat × Nat × Nat) × (Nat × Nat × Nat)) :=
  [("white", ((0, 0, 180), (180, 50, 255))),
   ("black", ((0, 0, 0), (180, 255, 80))),
   ("red", ((0, 80, 80), (15, 255, 255))),
   ("orange", ((10, 80, 80), (25, 255, 255))),
   ("blue", ((95, 80, 80), (135, 255, 255))),
   ("yellow", ((15, 60, 80), (35, 255, 255))),
   ("green", ((35, 60, 80), (85, 255, 255)))]

/-- `cv2.inRange` membership of one HSV pixel in a closed box. -/
def inRangeHSV (lo hi p : Nat × Nat × Nat) : Bool :=
  decide (lo.1 ≤ p.1 ∧ p.1 ≤ hi.1 ∧ lo.2.1 ≤ p.2.1 ∧ p.2.1 ≤ hi.2.1 ∧
    lo.2.2 ≤ p.2.2 ∧ p.2.2 ≤ hi.2.2)

/-- Number of in-mask pixels whose HSV value lies in the box
(`cv2.bitwise_and(color_mask, t_shirt_mask)` followed by `np.sum(... > 0)`). -/
def countMaskedInRange (hsv : Nat → Nat → Nat × Nat × Nat) (mask : Mask)
    (lo hi : Nat × Nat × Nat) : Nat :=
  ((Finset.range mask.h ×ˢ Finset.range mask.w).filter
    (fun p => 0 < mask.pix p.1 p.2 ∧ inRangeHSV lo hi (hsv p.1 p.2) = true)).card

/-- `TShirtDetector._detect_dominant_color_from_mask` (lines 323-355): pick the
color box with the strictly largest masked pixel count, return it only when the
count exceeds 10% of the mask area, else `'unknown'`. -/
def dominantColorFromMask (hsv : Nat → Nat → Nat × Nat × Nat) (mask : Mask) : String :=
  let best := colorRanges.foldl
    (fun (acc : String × Nat) cr =>
      if countMaskedInRange hsv mask cr.2.1 cr.2.2 > acc.2 then
        (cr.1, countMaskedInRange hsv mask cr.2.1 cr.2.2)
      else acc)
    ("unknown", 0)
  if (best.2 : ℚ) > 0.1 * (countNonZero mask : ℚ) then best.1 else "unknown"

/-- Sum of `f` over the in-mask pixels (the `hsv[t_shirt_mask > 0]` selection). -/
def maskedSum (mask : Mask) (f : Nat → Nat → Nat) : Nat :=
  ∑ p ∈ (Finset.range mask.h ×ˢ Finset.range mask.w).filter
    (fun p => 0 < mask.pix p.1 p.2), f p.1 p.2

/-- `TShirtDetector.detect_shirt_color` (lines 284-321).  `hsv` is the HSV
conversion of the masked frame (the `cv2.cvtColor(cv2.bitwise_and(...))`
composition is an abstracted OpenCV collaborator; only in-mask pixels are
read).  An empty mask returns `none` (Python `None`); otherwise the averaged
HSV value is pushed through the fixed decision bands, falling back to the
dominant-color vote. -/
def detect_shirt_color (hsv : Nat → Nat → Nat × Nat × Nat) (mask : Mask) : Option String :=
  let validCount := countNonZero mask
  if validCount = 0 then none
  else
    let avg_h : ℚ := (maskedSum mask (fun i j => (hsv i j).1) : ℚ) / (validCount : ℚ)
    let avg_s : ℚ := (maskedSum mask (fun i j => (hsv i j).2.1) : ℚ) / (validCount : ℚ)
    let avg_v : ℚ := (maskedSum mask (fun i j => (hsv i j).2.2) : ℚ) / (validCount : ℚ)
    if avg_v < 80 then some "black"
    else if avg_v > 180 ∧ avg_s < 80 then some "white"
    else if (0 ≤ avg_h ∧ avg_h ≤ 15) ∨ (165 ≤ avg_h ∧ avg_h ≤ 180) then some "red"
    else if 10 ≤ avg_h ∧ avg_h ≤ 25 then some "orange"
    else if 95 ≤ avg_h ∧ avg_h ≤ 135 then some "blue"
    else if 15 ≤ avg_h ∧ avg_h ≤ 35 then some "yellow"
    else if 35 ≤ avg_h ∧ avg_h ≤ 85 then some "green"
    else some (dominantColorFromMask hsv mask)

/-! ### Concrete fixtures used by witnesses -/

/-- A 1×1 all-black image. -/
def sampleImgA : ColorImg := ⟨1, 1, fun _ _ => 0, fun _ _ => 0, fun _ _ => 0⟩

/-- The identical-path success payload for `sampleImgA` against itself. -/
def samplePerfect : MatchOk :=
  ⟨1, "Perfect Match (Identical Images)", (1, 1), (1, 1), (0, 0), "Direct Comparison", 1⟩

/-- A 1×2 image whose grayscale is `[1, 0]`. -/
def cexTemplate : ColorImg :=
  ⟨1, 2, fun _ j => if j = 0 then 1 else 0, fun _ j => if j = 0 then 1 else 0,
    fun _ j => if j = 0 then 1 else 0⟩

/-- A 1×2 image whose grayscale is `[0, 1]`. -/
def cexSearch : ColorImg :=
  ⟨1, 2, fun _ j => if j = 0 then 0 else 1, fun _ j => if j = 0 then 0 else 1,
    fun _ j => if j = 0 then 0 else 1⟩

/-- A red pending order. -/
def sampleOrderRed : PendingOrder := ⟨1, "red"⟩

/-- A blue pending order. -/
def sampleOrderBlue : PendingOrder := ⟨2, "blue"⟩

/-- A featureless (plain) design-features record. -/
def samplePlainDF : DesignFeatures := ⟨0, 0, 0, 0, 0, "Plain"⟩

/-- A 2×2 all-zero mask. -/
def sampleMask0 : Mask := ⟨2, 2, fun _ _ => 0⟩

/-- A constant HSV field. -/
def sampleHSV0 : Nat → Nat → Nat × Nat × Nat := fun _ _ => (0, 0, 0)

/-! ### Theorems -/

/-- Helper: `compare_images` on the concrete pair `(sampleImgA, sampleImgA)`
takes the identical-image branch. -/
theorem compare_images_sample_eval :
    compare_images (some sampleImgA) (some sampleImgA) = CompareResult.ok samplePerfect := by
  simp only [compare_images]
  rw [if_pos (by decide)]
  rfl

/-- C1: if both inputs decode and their grayscale conversions have identical
dimensions and exactly equal pixel values, `compare_images` returns the
immediate result with confidence 1.0, quality `Perfect Match (Identical
Images)` and location (0,0); in particular comparing any decodable image to
itself does. -/
theorem compare_images_identical_perfect (t s : ColorImg)
    (hEq : arrayEqual (cvtColorBGR2GRAY t) (cvtColorBGR2GRAY s)) :
    compare_images (some t) (some s) =
      CompareResult.ok ⟨1, "Perfect Match (Identical Images)", (t.w, t.h), (s.w, s.h),
        (0, 0), "Direct Comparison", 1⟩ := by
  simp only [compare_images]
  rw [if_pos ⟨hEq.1, hEq.2.1, hEq⟩]
  rfl

/-- Witness for C1: a concrete self-comparison. -/
theorem compare_images_identical_perfect_witness :
    compare_images (some sampleImgA) (some sampleImgA) =
      CompareResult.ok ⟨1, "Perfect Match (Identical Images)", (sampleImgA.w, sampleImgA.h),
        (sampleImgA.w, sampleImgA.h), (0, 0), "Direct Comparison", 1⟩ :=
  compare_images_identical_perfect sampleImgA sampleImgA (by decide)

/-- C3: the non-identical confidence adjustment of `compare_images` follows
the claimed priority order: identical-dimension snap to 1.0 above 0.95, the
same-dimension `min(0.98, raw*1.1)` boost above 0.8, then the plain size-ratio
penalties (×0.5 above ratio 1.0, ×0.8 below ratio 0.01, unchanged otherwise). -/
theorem adjustConfidence_matches_spec_priority (hT wT hS wS : Nat) (raw sr : ℝ) :
    adjustConfidence hT wT hS wS raw sr = adjustConfidenceSpec hT wT hS wS raw sr := by
  simp only [adjustConfidence, adjustConfidenceSpec]
  split_ifs <;> first | rfl | linarith

/-- C4: the quality label of the non-identical path is the fixed-breakpoint
function of the final confidence, with each label holding exactly on its
half-open confidence interval. -/
theorem matchQualityLabel_breakpoints (c : ℝ) :
    (matchQualityLabel c = "Perfect Match" ↔ 0.99 ≤ c) ∧
    (matchQualityLabel c = "Excellent Match" ↔ 0.8 ≤ c ∧ c < 0.99) ∧
    (matchQualityLabel c = "Good Match" ↔ 0.6 ≤ c ∧ c < 0.8) ∧
    (matchQualityLabel c = "Moderate Match" ↔ 0.4 ≤ c ∧ c < 0.6) ∧
    (matchQualityLabel c = "Weak Match" ↔ 0.2 ≤ c ∧ c < 0.4) ∧
    (matchQualityLabel c = "No Significant Match" ↔ c < 0.2) := by
  simp only [matchQualityLabel]
  split_ifs with h1 h2 h3 h4 h5 <;>
    refine ⟨⟨fun hs => ?_, fun hc => ?_⟩, ⟨fun hs => ?_, fun hc => ?_⟩,
      ⟨fun hs => ?_, fun hc => ?_⟩, ⟨fun hs => ?_, fun hc => ?_⟩,
      ⟨fun hs => ?_, fun hc => ?_⟩, ⟨fun hs => ?_, fun hc => ?_⟩⟩ <;>
    first
      | rfl
      | linarith
      | (exact absurd hs (by decide))
      | (exfalso; rcases hc with ⟨hc1, hc2⟩ <;> linarith)
      | (exfalso; linarith [hc])
      | (exact ⟨by linarith, by linarith⟩)

/-- C5: the garment decision of `detect_t_shirt` is exactly "the nonzero-pixel
ratio of the final unioned mask strictly exceeds 0.02". -/
theorem detect_t_shirt_garment_iff_ratio (fH fW : Nat) (regions : List Mask)
    (valid : Mask → Bool) :
    (detect_t_shirt_decision fH fW regions valid).1 = true ↔
      (countNonZero (detect_t_shirt_decision fH fW regions valid).2 : ℚ) /
        ((fH * fW : Nat) : ℚ) > 0.02 := by
  simp [detect_t_shirt_decision]

/-- C6: `_classify_design_type` computes exactly the claimed nine-rule
first-match-wins decision tree over the four numeric signals; being a pure
function of those signals, identical inputs give identical labels. -/
theorem classify_design_type_matches_spec (k c t : Nat) (ed : ℚ) :
    classify_design_type k c t ed = classifyDesignTypeSpec k c t ed := by
  have hcs : (k : ℚ) * 0.3 + (c : ℚ) * 0.3 + (t : ℚ) * 0.2 + ed * 1000 * 0.2 =
      0.3 * (k : ℚ) + 0.3 * (c : ℚ) + 0.2 * (t : ℚ) + 0.2 * (ed * 1000) := by ring
  simp only [classify_design_type, classifyDesignTypeSpec, hcs]
  split_ifs <;> first | rfl | (exfalso; omega) | tauto

/-- C9: an all-zero mask makes `detect_shirt_color` return `None`, and
feeding that result to `find_matching_order` yields no match for every order
list and every design-features record. -/
theorem empty_mask_no_color_no_match (hsv : Nat → Nat → Nat × Nat × Nat) (mask : Mask)
    (orders : List PendingOrder) (df : DesignFeatures)
    (hempty : countNonZero mask = 0) :
    detect_shirt_color hsv mask = none ∧
      find_matching_order orders (detect_shirt_color hsv mask) df = none := by
  have h1 : detect_shirt_color hsv mask = none := by
    simp only [detect_shirt_color]
    rw [if_pos hempty]
  refine ⟨h1, ?_⟩
  rw [h1]
  cases orders <;> rfl

/-- Witness for C9: the concrete empty mask. -/
theorem empty_mask_no_color_no_match_witness :
    detect_shirt_color sampleHSV0 sampleMask0 = none ∧
      find_matching_order [sampleOrderRed, sampleOrderBlue]
        (detect_shirt_color sampleHSV0 sampleMask0) samplePlainDF = none :=
  empty_mask_no_color_no_match sampleHSV0 sampleMask0 [sampleOrderRed, sampleOrderBlue]
    samplePlainDF (by decide)

/-- Helper: complete characterization of the strict-improvement fold of
`find_matching_order`.  Either no element beats the running score and the
accumulator survives, or the result is the first element of a decomposition
whose earlier elements all score strictly lower and later elements no higher. -/
theorem foldl_matchStep_spec (c : String) (df : DesignFeatures) :
    ∀ (l : List PendingOrder) (b : Option PendingOrder) (s : ℚ),
      (l.foldl (matchStep c df) (b, s) = (b, s) ∧ ∀ x ∈ l, orderScore x c df ≤ s) ∨
      (∃ pre o post, l = pre ++ o :: post ∧
        l.foldl (matchStep c df) (b, s) = (some o, orderScore o c df) ∧
        s < orderScore o c df ∧
        (∀ p ∈ pre, orderScore p c df < orderScore o c df) ∧
        (∀ q ∈ post, orderScore q c df ≤ orderScore o c df)) := by
  intro l
  induction l with
  | nil => intro b s; left; exact ⟨rfl, by simp⟩
  | cons x xs ih =>
    intro b s
    rw [List.foldl_cons]
    by_cases hx : orderScore x c df > s
    · have hstep : matchStep c df (b, s) x = (some x, orderScore x c df) := by
        simp only [matchStep]; rw [if_pos hx]
      rw [hstep]
      rcases ih (some x) (orderScore x c df) with ⟨heq, hall⟩ |
        ⟨pre, o, post, hdec, heq, hgt, hpre, hpost⟩
      · right; exact ⟨[], x, xs, rfl, heq, hx, by simp, hall⟩
      · right
        refine ⟨x :: pre, o, post, by rw [hdec]; rfl, heq, lt_trans hx hgt, ?_, hpost⟩
        intro p hp
        rcases List.mem_cons.mp hp with rfl | hp'
        · exact hgt
        · exact hpre p hp'
    · push_neg at hx
      have hstep : matchStep c df (b, s) x = (b, s) := by
        simp only [matchStep]; rw [if_neg (not_lt.mpr hx)]
      rw [hstep]
      rcases ih b s with ⟨heq, hall⟩ | ⟨pre, o, post, hdec, heq, hgt, hpre, hpost⟩
      · left
        refine ⟨heq, ?_⟩
        intro y hy
        rcases List.mem_cons.mp hy with rfl | hy'
        · exact hx
        · exact hall y hy'
      · right
        refine ⟨x :: pre, o, post, by rw [hdec]; rfl, heq, hgt, ?_, hpost⟩
        intro p hp
        rcases List.mem_cons.mp hp with rfl | hp'
        · exact lt_of_le_of_lt hx hgt
        · exact hpre p hp'

/-- C7: `find_matching_order` returns an order only when its score strictly
exceeds 25 and is maximal over the scan, with every earlier order scoring
strictly lower (first-seen wins ties); and whenever it reports no match, no
order scores above 25. -/
theorem find_matching_order_characterization (orders : List PendingOrder) (c : String)
    (df : DesignFeatures) :
    (∀ o, find_matching_order orders (some c) df = some o →
        orderScore o c df > 25 ∧
        (∀ o' ∈ orders, orderScore o' c df ≤ orderScore o c df) ∧
        ∃ pre post, orders = pre ++ o :: post ∧
          ∀ p ∈ pre, orderScore p c df < orderScore o c df) ∧
    (find_matching_order orders (some c) df = none →
        ∀ o ∈ orders, orderScore o c df ≤ 25) := by
  by_cases hemp : orders.isEmpty
  · constructor
    · intro o ho
      simp only [find_matching_order, if_pos hemp] at ho
      exact Option.noConfusion ho
    · intro _ o ho
      rw [List.isEmpty_iff] at hemp
      subst hemp
      simp at ho
  · rcases foldl_matchStep_spec c df orders none 0 with ⟨heq, hall⟩ |
      ⟨pre, o', post, hdec, heq, hgt, hpre, hpost⟩
    · constructor
      · intro o ho
        simp only [find_matching_order, if_neg hemp, heq] at ho
        rw [if_neg (by norm_num : ¬ (0 : ℚ) > 25)] at ho
        exact Option.noConfusion ho
      · intro _ o ho
        exact le_trans (hall o ho) (by norm_num)
    · constructor
      · intro o ho
        simp only [find_matching_order, if_neg hemp, heq] at ho
        by_cases h25 : orderScore o' c df > 25
        · rw [if_pos h25] at ho
          obtain rfl : o' = o := Option.some.inj ho
          refine ⟨h25, ?_, pre, post, hdec, hpre⟩
          intro o'' ho''
          rw [hdec] at ho''
          rcases List.mem_append.mp ho'' with hl | hr
          · exact le_of_lt (hpre o'' hl)
          · rcases List.mem_cons.mp hr with rfl | hr'
            · exact le_rfl
            · exact hpost o'' hr'
        · rw [if_neg h25] at ho
          exact absurd ho (by simp)
      · intro ho o hmem
        simp only [find_matching_order, if_neg hemp, heq] at ho
        by_cases h25 : orderScore o' c df > 25
        · rw [if_pos h25] at ho
          exact absurd ho (by simp)
        · push_neg at h25
          have hle : orderScore o c df ≤ orderScore o' c df := by
            rw [hdec] at hmem
            rcases List.mem_append.mp hmem with hl | hr
            · exact le_of_lt (hpre o hl)
            · rcases List.mem_cons.mp hr with rfl | hr'
              · exact le_rfl
              · exact hpost o hr'
          exact le_trans hle h25

/-- Helper: score of the red order against detected color `red` and a plain
design record. -/
theorem orderScore_red_eval : orderScore sampleOrderRed "red" samplePlainDF = 50 := by
  unfold orderScore colorScore designScore featureScore
  rw [if_pos (by decide : pyLower sampleOrderRed.color = pyLower "red"),
    if_neg (by decide : ¬ samplePlainDF.design_type ≠ "Plain"),
    if_neg (by decide : ¬ samplePlainDF.feature_count > 0)]
  norm_num

/-- Helper: score of the blue order against detected color `red` and a plain
design record. -/
theorem orderScore_blue_eval : orderScore sampleOrderBlue "red" samplePlainDF = 0 := by
  unfold orderScore colorScore designScore featureScore
  rw [if_neg (by decide : ¬ pyLower sampleOrderBlue.color = pyLower "red"),
    if_neg (by decide : ¬ ("red" : String) = "unknown"),
    if_neg (by decide : ¬ samplePlainDF.design_type ≠ "Plain"),
    if_neg (by decide : ¬ samplePlainDF.feature_count > 0)]
  norm_num

/-- Helper: the concrete matcher run picks the red order. -/
theorem find_matching_order_sample_eval :
    find_matching_order [sampleOrderRed, sampleOrderBlue] (some "red") samplePlainDF =
      some sampleOrderRed := by
  simp only [find_matching_order, List.foldl_cons, List.foldl_nil, matchStep,
    orderScore_red_eval, orderScore_blue_eval]
  norm_num

/-- Witness for C7: with detected color `red`, a red and a blue order, and a
plain design record, the red order is returned and satisfies the
characterization. -/
theorem find_matching_order_characterization_witness :
    orderScore sampleOrderRed "red" samplePlainDF > 25 ∧
      (∀ o' ∈ [sampleOrderRed, sampleOrderBlue],
        orderScore o' "red" samplePlainDF ≤ orderScore sampleOrderRed "red" samplePlainDF) ∧
      ∃ pre post, [sampleOrderRed, sampleOrderBlue] = pre ++ sampleOrderRed :: post ∧
        ∀ p ∈ pre, orderScore p "red" samplePlainDF < orderScore sampleOrderRed "red" samplePlainDF :=
  (find_matching_order_characterization [sampleOrderRed, sampleOrderBlue] "red"
    samplePlainDF).1 sampleOrderRed find_matching_order_sample_eval

/-- Helper: the design part of the score is monotone in the text-region
count. -/
theorem designScore_mono_text (df : DesignFeatures) (t1 t2 : Nat) (h : t1 ≤ t2) :
    designScore { df with text_elements := t1 } ≤ designScore { df with text_elements := t2 } := by
  simp only [designScore]
  split_ifs <;> first | exact le_rfl | linarith | (exfalso; omega)

/-- Helper: the design part of the score is monotone in the contour count. -/
theorem designScore_mono_contours (df : DesignFeatures) (d1 d2 : Nat) (h : d1 ≤ d2) :
    designScore { df with design_contours := d1 } ≤
      designScore { df with design_contours := d2 } := by
  simp only [designScore]
  split_ifs <;> first | exact le_rfl | linarith | (exfalso; omega)

set_option maxHeartbeats 1600000 in
/-- Helper: the design part of the score is monotone in the composite
complexity. -/
theorem designScore_mono_complexity (df : DesignFeatures) (x1 x2 : ℚ) (h : x1 ≤ x2) :
    designScore { df with overall_complexity := x1 } ≤
      designScore { df with overall_complexity := x2 } := by
  simp only [designScore]
  split_ifs <;> first | exact le_rfl | linarith | (exfalso; linarith)

set_option maxHeartbeats 800000 in
/-- Helper: a plain design type never outscores any other design type. -/
theorem designScore_plain_le (df : DesignFeatures) (dt : String) :
    designScore { df with design_type := "Plain" } ≤
      designScore { df with design_type := dt } := by
  simp only [designScore]
  rw [if_neg (by simp : ¬ ("Plain" : String) ≠ "Plain")]
  split_ifs <;> linarith

/-- Helper: the legacy feature part of the score is monotone in the keypoint
count. -/
theorem featureScore_mono (df : DesignFeatures) (k1 k2 : Nat) (h : k1 ≤ k2) :
    featureScore { df with feature_count := k1 } ≤
      featureScore { df with feature_count := k2 } := by
  simp only [featureScore]
  by_cases h1 : k1 > 0
  · have h2 : k2 > 0 := Nat.lt_of_lt_of_le h1 h
    rw [if_pos h1, if_pos h2]
    refine min_le_min ?_ le_rfl
    have hc : (k1 : ℚ) ≤ (k2 : ℚ) := by exact_mod_cast h
    linarith
  · rw [if_neg h1]
    by_cases h2 : k2 > 0
    · rw [if_pos h2]
      exact le_min (by positivity) (by norm_num)
    · rw [if_neg h2]

/-- C8: the per-order score of `find_matching_order` is monotone in each
positive-scoring match signal: raising the text-region count, the contour
count, the composite complexity, or the keypoint count (holding every other
field fixed) never decreases the score, and neither does leaving `Plain` for
any design type. -/
theorem orderScore_monotone_in_signals (order : PendingOrder) (c : String) (df : DesignFeatures) :
    (∀ t1 t2 : Nat, t1 ≤ t2 →
        orderScore order c { df with text_elements := t1 } ≤
          orderScore order c { df with text_elements := t2 }) ∧
    (∀ d1 d2 : Nat, d1 ≤ d2 →
        orderScore order c { df with design_contours := d1 } ≤
          orderScore order c { df with design_contours := d2 }) ∧
    (∀ x1 x2 : ℚ, x1 ≤ x2 →
        orderScore order c { df with overall_complexity := x1 } ≤
          orderScore order c { df with overall_complexity := x2 }) ∧
    (∀ k1 k2 : Nat, k1 ≤ k2 →
        orderScore order c { df with feature_count := k1 } ≤
          orderScore order c { df with feature_count := k2 }) ∧
    (∀ dt : String,
        orderScore order c { df with design_type := "Plain" } ≤
          orderScore order c { df with design_type := dt }) := by
  refine ⟨?_, ?_, ?_, ?_, ?_⟩
  · intro t1 t2 h
    have hfeq : featureScore { df with text_elements := t1 } =
        featureScore { df with text_elements := t2 } := rfl
    unfold orderScore
    rw [hfeq]
    exact add_le_add (add_le_add le_rfl (designScore_mono_text df t1 t2 h)) le_rfl
  · intro d1 d2 h
    have hfeq : featureScore { df with design_contours := d1 } =
        featureScore { df with design_contours := d2 } := rfl
    unfold orderScore
    rw [hfeq]
    exact add_le_add (add_le_add le_rfl (designScore_mono_contours df d1 d2 h)) le_rfl
  · intro x1 x2 h
    have hfeq : featureScore { df with overall_complexity := x1 } =
        featureScore { df with overall_complexity := x2 } := rfl
    unfold orderScore
    rw [hfeq]
    exact add_le_add (add_le_add le_rfl (designScore_mono_complexity df x1 x2 h)) le_rfl
  · intro k1 k2 h
    have hdeq : designScore { df with feature_count := k1 } =
        designScore { df with feature_count := k2 } := rfl
    unfold orderScore
    rw [hdeq]
    exact add_le_add le_rfl (featureScore_mono df k1 k2 h)
  · intro dt
    have hfeq : featureScore { df with design_type := "Plain" } =
        featureScore { df with design_type := dt } := rfl
    unfold orderScore
    rw [hfeq]
    exact add_le_add (add_le_add le_rfl (designScore_plain_le df dt)) le_rfl

/-- Witness for C8: raising the text-region count from 2 to 5 on the plain
record never decreases the red order's score. -/
theorem orderScore_monotone_in_signals_witness :
    orderScore sampleOrderRed "red" { samplePlainDF with text_elements := 2 } ≤
      orderScore sampleOrderRed "red" { samplePlainDF with text_elements := 5 } :=
  (orderScore_monotone_in_signals sampleOrderRed "red" samplePlainDF).1 2 5 (by decide)

/-- Helper: the matching loop never updates its state when every method's
confidence is at most the current best confidence. -/
theorem foldl_methodStep_no_update (searchImg tmpl : GrayImg) :
    ∀ (l : List TMMethod) (best : BestState),
      (∀ m ∈ l, (methodConfLoc m searchImg tmpl).1 ≤ best.conf) →
      l.foldl (methodStep searchImg tmpl) best = best := by
  intro l
  induction l with
  | nil => intro best _; rfl
  | cons m ms ih =>
    intro best hall
    rw [List.foldl_cons]
    have hstep : methodStep searchImg tmpl best m = best := by
      simp only [methodStep]
      rw [if_neg (not_lt.mpr (hall m (List.mem_cons_self m ms)))]
    rw [hstep]
    exact ih best (fun x hx => hall x (List.mem_cons_of_mem m hx))

/-- C10: when a decodable, non-identical pair reaches the matching loop and no
method produces a strictly positive confidence, `best_location` is never
assigned, so the annotation step raises and `compare_images` returns a typed
failure instead of a scored result. -/
theorem compare_images_no_positive_confidence_failure (t s : ColorImg)
    (hnotid : ¬ ((cvtColorBGR2GRAY t).h = (cvtColorBGR2GRAY s).h ∧
      (cvtColorBGR2GRAY t).w = (cvtColorBGR2GRAY s).w ∧
      arrayEqual (cvtColorBGR2GRAY t) (cvtColorBGR2GRAY s)))
    (hfits : (cvtColorBGR2GRAY t).h ≤ (cvtColorBGR2GRAY s).h ∧
      (cvtColorBGR2GRAY t).w ≤ (cvtColorBGR2GRAY s).w)
    (hall : ∀ m ∈ methodsList,
      (methodConfLoc m (cvtColorBGR2GRAY s) (cvtColorBGR2GRAY t)).1 ≤ 0) :
    compare_images (some t) (some s) =
      CompareResult.failure "TypeError: NoneType is not subscriptable" := by
  have hrun : runMethods (cvtColorBGR2GRAY s) (cvtColorBGR2GRAY t) =
      { conf := 0, method := none, loc := none } :=
    foldl_methodStep_no_update (cvtColorBGR2GRAY s) (cvtColorBGR2GRAY t) methodsList
      { conf := 0, method := none, loc := none } hall
  simp only [compare_images]
  rw [if_neg hnotid, if_neg (not_not.mpr hfits), hrun]

/-- Helper: the fixture pair admits exactly one template position. -/
theorem tmPositions_cex :
    tmPositions (cvtColorBGR2GRAY cexSearch) (cvtColorBGR2GRAY cexTemplate) = [(0, 0)] := by
  decide

/-- Helper: `minMaxLoc` over a single position. -/
theorem minMaxLoc_singleton (f : Nat × Nat → ℝ) (p : Nat × Nat) :
    minMaxLoc f [p] = (f p, f p, p, p) := rfl

/-- Helper: grayscale pixels of the fixture template. -/
theorem cexT_pix0 : (cvtColorBGR2GRAY cexTemplate).pix 0 0 = 1 := by decide

/-- Helper: grayscale pixels of the fixture template. -/
theorem cexT_pix1 : (cvtColorBGR2GRAY cexTemplate).pix 0 1 = 0 := by decide

/-- Helper: grayscale pixels of the fixture search image. -/
theorem cexS_pix0 : (cvtColorBGR2GRAY cexSearch).pix 0 0 = 0 := by decide

/-- Helper: grayscale pixels of the fixture search image. -/
theorem cexS_pix1 : (cvtColorBGR2GRAY cexSearch).pix 0 1 = 1 := by decide

/-- Helper: a `sum2` over a 1×2 window is a two-term sum. -/
theorem sum2_one_two (f : Nat → Nat → ℝ) : sum2 1 2 f = f 0 0 + f 0 1 := by
  simp [sum2, Finset.sum_product, Finset.sum_range_succ]

/-- Helper: the squared-difference value of the fixture pair is 2. -/
theorem cex_sqdiff_val :
    tmSqdiffNormedAt (cvtColorBGR2GRAY cexSearch) (cvtColorBGR2GRAY cexTemplate) 0 0 = 2 := by
  unfold tmSqdiffNormedAt
  simp only [show (cvtColorBGR2GRAY cexTemplate).h = 1 from rfl,
    show (cvtColorBGR2GRAY cexTemplate).w = 2 from rfl, sum2_one_two]
  norm_num [cexT_pix0, cexT_pix1, cexS_pix0, cexS_pix1, Real.sqrt_one]

/-- Helper: the cross-correlation value of the fixture pair is 0. -/
theorem cex_ccorr_val :
    tmCcorrNormedAt (cvtColorBGR2GRAY cexSearch) (cvtColorBGR2GRAY cexTemplate) 0 0 = 0 := by
  unfold tmCcorrNormedAt
  simp only [show (cvtColorBGR2GRAY cexTemplate).h = 1 from rfl,
    show (cvtColorBGR2GRAY cexTemplate).w = 2 from rfl, sum2_one_two]
  norm_num [cexT_pix0, cexT_pix1, cexS_pix0, cexS_pix1]

/-- Helper: the coefficient-correlation value of the fixture pair is −1. -/
theorem cex_ccoeff_val :
    tmCcoeffNormedAt (cvtColorBGR2GRAY cexSearch) (cvtColorBGR2GRAY cexTemplate) 0 0 = -1 := by
  unfold tmCcoeffNormedAt tmplMean windowMean
  simp only [show (cvtColorBGR2GRAY cexTemplate).h = 1 from rfl,
    show (cvtColorBGR2GRAY cexTemplate).w = 2 from rfl, sum2_one_two]
  have h4 : Real.sqrt 4 = 2 := by
    rw [show (4 : ℝ) = 2 ^ 2 by norm_num]
    exact Real.sqrt_sq (by norm_num)
  norm_num [cexT_pix0, cexT_pix1, cexS_pix0, cexS_pix1]
  rw [h4]
  norm_num

/-- Helper: the per-method confidence of the fixture pair for
`TM_SQDIFF_NORMED` is −1. -/
theorem cex_conf_sqdiff :
    (methodConfLoc .tm_sqdiff_normed (cvtColorBGR2GRAY cexSearch)
      (cvtColorBGR2GRAY cexTemplate)).1 = -1 := by
  have h : (methodConfLoc .tm_sqdiff_normed (cvtColorBGR2GRAY cexSearch)
      (cvtColorBGR2GRAY cexTemplate)).1 =
      1 - tmSqdiffNormedAt (cvtColorBGR2GRAY cexSearch) (cvtColorBGR2GRAY cexTemplate) 0 0 := rfl
  rw [h, cex_sqdiff_val]
  norm_num

/-- Helper: the per-method confidence of the fixture pair for
`TM_CCOEFF_NORMED` is −1. -/
theorem cex_conf_ccoeff :
    (methodConfLoc .tm_ccoeff_normed (cvtColorBGR2GRAY cexSearch)
      (cvtColorBGR2GRAY cexTemplate)).1 = -1 := by
  have h : (methodConfLoc .tm_ccoeff_normed (cvtColorBGR2GRAY cexSearch)
      (cvtColorBGR2GRAY cexTemplate)).1 =
      tmCcoeffNormedAt (cvtColorBGR2GRAY cexSearch) (cvtColorBGR2GRAY cexTemplate) 0 0 := rfl
  rw [h]
  exact cex_ccoeff_val

/-- Helper: the per-method confidence of the fixture pair for
`TM_CCORR_NORMED` is 0. -/
theorem cex_conf_ccorr :
    (methodConfLoc .tm_ccorr_normed (cvtColorBGR2GRAY cexSearch)
      (cvtColorBGR2GRAY cexTemplate)).1 = 0 := by
  have h : (methodConfLoc .tm_ccorr_normed (cvtColorBGR2GRAY cexSearch)
      (cvtColorBGR2GRAY cexTemplate)).1 =
      tmCcorrNormedAt (cvtColorBGR2GRAY cexSearch) (cvtColorBGR2GRAY cexTemplate) 0 0 := rfl
  rw [h]
  exact cex_ccorr_val

/-- Witness for C10: on the concrete non-identical fixture pair every method's
confidence is nonpositive and the comparison fails. -/
theorem compare_images_no_positive_confidence_failure_witness :
    compare_images (some cexTemplate) (some cexSearch) =
      CompareResult.failure "TypeError: NoneType is not subscriptable" :=
  compare_images_no_positive_confidence_failure cexTemplate cexSearch (by decide) (by decide)
    (by
      intro m hm
      simp only [methodsList, List.mem_cons, List.not_mem_nil, or_false] at hm
      rcases hm with rfl | rfl | rfl
      · rw [cex_conf_sqdiff]; norm_num
      · rw [cex_conf_ccoeff]; norm_num
      · rw [cex_conf_ccorr])

/-- Helper: a `sum2` of pointwise-nonnegative values is nonnegative. -/
theorem sum2_nonneg (hh ww : Nat) (f : Nat → Nat → ℝ) (h : ∀ i j, 0 ≤ f i j) :
    0 ≤ sum2 hh ww f :=
  Finset.sum_nonneg (fun p _ => h p.1 p.2)

/-- Helper: the normalized-correlation shape is bounded by 1
(Cauchy-Schwarz over the window). -/
theorem cauchy_div_sqrt_le_one (hh ww : Nat) (f g : Nat → Nat → ℝ) :
    sum2 hh ww (fun i j => f i j * g i j) /
      Real.sqrt (sum2 hh ww (fun i j => f i j ^ 2) * sum2 hh ww (fun i j => g i j ^ 2)) ≤ 1 := by
  have hCS : sum2 hh ww (fun i j => f i j * g i j) ^ 2 ≤
      sum2 hh ww (fun i j => f i j ^ 2) * sum2 hh ww (fun i j => g i j ^ 2) :=
    Finset.sum_mul_sq_le_sq_mul_sq (Finset.range hh ×ˢ Finset.range ww)
      (fun p => f p.1 p.2) (fun p => g p.1 p.2)
  have hA : sum2 hh ww (fun i j => f i j * g i j) ≤
      Real.sqrt (sum2 hh ww (fun i j => f i j ^ 2) * sum2 hh ww (fun i j => g i j ^ 2)) := by
    calc sum2 hh ww (fun i j => f i j * g i j)
        ≤ |sum2 hh ww (fun i j => f i j * g i j)| := le_abs_self _
      _ = Real.sqrt (sum2 hh ww (fun i j => f i j * g i j) ^ 2) :=
          (Real.sqrt_sq_eq_abs _).symm
      _ ≤ Real.sqrt (sum2 hh ww (fun i j => f i j ^ 2) * sum2 hh ww (fun i j => g i j ^ 2)) :=
          Real.sqrt_le_sqrt hCS
  rcases eq_or_lt_of_le (Real.sqrt_nonneg
      (sum2 hh ww (fun i j => f i j ^ 2) * sum2 hh ww (fun i j => g i j ^ 2))) with h0 | hpos
  · rw [← h0, div_zero]
    exact zero_le_one
  · exact (div_le_one hpos).mpr hA

/-- Helper: every squared-difference result value is nonnegative. -/
theorem tmSqdiff_nonneg (searchImg tmpl : GrayImg) (x y : Nat) :
    0 ≤ tmSqdiffNormedAt searchImg tmpl x y :=
  div_nonneg (sum2_nonneg _ _ _ (fun _ _ => sq_nonneg _)) (Real.sqrt_nonneg _)

/-- Helper: every cross-correlation result value is at most 1. -/
theorem tmCcorr_le_one (searchImg tmpl : GrayImg) (x y : Nat) :
    tmCcorrNormedAt searchImg tmpl x y ≤ 1 :=
  cauchy_div_sqrt_le_one tmpl.h tmpl.w (fun i j => (tmpl.pix i j : ℝ))
    (fun i j => (searchImg.pix (y + i) (x + j) : ℝ))

/-- Helper: every coefficient-correlation result value is at most 1. -/
theorem tmCcoeff_le_one (searchImg tmpl : GrayImg) (x y : Nat) :
    tmCcoeffNormedAt searchImg tmpl x y ≤ 1 :=
  cauchy_div_sqrt_le_one tmpl.h tmpl.w
    (fun i j => (tmpl.pix i j : ℝ) - tmplMean tmpl)
    (fun i j => (searchImg.pix (y + i) (x + j) : ℝ) - windowMean searchImg tmpl.h tmpl.w x y)

/-- Helper: the running minimum of a scan is the seed value or one scanned
value. -/
theorem scanMin_cases (f : Nat × Nat → ℝ) :
    ∀ (l : List (Nat × Nat)) (init : (Nat × Nat) × ℝ),
      (scanMin f init l).2 = init.2 ∨ ∃ p ∈ l, (scanMin f init l).2 = f p := by
  intro l
  induction l with
  | nil => intro init; left; rfl
  | cons p ps ih =>
    intro init
    simp only [scanMin]
    rcases ih (if f p < init.2 then (p, f p) else init) with h | ⟨q, hq, h⟩
    · by_cases hc : f p < init.2
      · right
        refine ⟨p, List.mem_cons_self p ps, ?_⟩
        rw [h, if_pos hc]
      · left
        rw [h, if_neg hc]
    · right
      exact ⟨q, List.mem_cons_of_mem p hq, h⟩

/-- Helper: the running maximum of a scan is the seed value or one scanned
value. -/
theorem scanMax_cases (f : Nat × Nat → ℝ) :
    ∀ (l : List (Nat × Nat)) (init : (Nat × Nat) × ℝ),
      (scanMax f init l).2 = init.2 ∨ ∃ p ∈ l, (scanMax f init l).2 = f p := by
  intro l
  induction l with
  | nil => intro init; left; rfl
  | cons p ps ih =>
    intro init
    simp only [scanMax]
    rcases ih (if f p > init.2 then (p, f p) else init) with h | ⟨q, hq, h⟩
    · by_cases hc : f p > init.2
      · right
        refine ⟨p, List.mem_cons_self p ps, ?_⟩
        rw [h, if_pos hc]
      · left
        rw [h, if_neg hc]
    · right
      exact ⟨q, List.mem_cons_of_mem p hq, h⟩

/-- Helper: every per-method confidence is at most 1 (in exact arithmetic the
three OpenCV normalized correlation metrics never exceed 1, and the
squared-difference metric is nonnegative). -/
theorem methodConf_le_one (m : TMMethod) (searchImg tmpl : GrayImg) :
    (methodConfLoc m searchImg tmpl).1 ≤ 1 := by
  cases m with
  | tm_sqdiff_normed =>
    show 1 - (minMaxLoc (tmResultAt .tm_sqdiff_normed searchImg tmpl)
      (tmPositions searchImg tmpl)).1 ≤ 1
    cases htp : tmPositions searchImg tmpl with
    | nil => simp [minMaxLoc]
    | cons p ps =>
      simp only [minMaxLoc]
      rcases scanMin_cases (tmResultAt .tm_sqdiff_normed searchImg tmpl) ps
          (p, tmResultAt .tm_sqdiff_normed searchImg tmpl p) with h | ⟨q, _, h⟩
      · rw [h]
        have := tmSqdiff_nonneg searchImg tmpl p.1 p.2
        simp only [tmResultAt]
        linarith
      · rw [h]
        have := tmSqdiff_nonneg searchImg tmpl q.1 q.2
        simp only [tmResultAt]
        linarith
  | tm_ccoeff_normed =>
    show (minMaxLoc (tmResultAt .tm_ccoeff_normed searchImg tmpl)
      (tmPositions searchImg tmpl)).2.1 ≤ 1
    cases htp : tmPositions searchImg tmpl with
    | nil => simp [minMaxLoc]
    | cons p ps =>
      simp only [minMaxLoc]
      rcases scanMax_cases (tmResultAt .tm_ccoeff_normed searchImg tmpl) ps
          (p, tmResultAt .tm_ccoeff_normed searchImg tmpl p) with h | ⟨q, _, h⟩
      · rw [h]
        exact tmCcoeff_le_one searchImg tmpl p.1 p.2
      · rw [h]
        exact tmCcoeff_le_one searchImg tmpl q.1 q.2
  | tm_ccorr_normed =>
    show (minMaxLoc (tmResultAt .tm_ccorr_normed searchImg tmpl)
      (tmPositions searchImg tmpl)).2.1 ≤ 1
    cases htp : tmPositions searchImg tmpl with
    | nil => simp [minMaxLoc]
    | cons p ps =>
      simp only [minMaxLoc]
      rcases scanMax_cases (tmResultAt .tm_ccorr_normed searchImg tmpl) ps
          (p, tmResultAt .tm_ccorr_normed searchImg tmpl p) with h | ⟨q, _, h⟩
      · rw [h]
        exact tmCcorr_le_one searchImg tmpl p.1 p.2
      · rw [h]
        exact tmCcorr_le_one searchImg tmpl q.1 q.2

/-- Helper: the matching loop never decreases the running confidence. -/
theorem foldl_methodStep_conf_nonneg (searchImg tmpl : GrayImg) :
    ∀ (l : List TMMethod) (b : BestState), 0 ≤ b.conf →
      0 ≤ (l.foldl (methodStep searchImg tmpl) b).conf := by
  intro l
  induction l with
  | nil => intro b hb; exact hb
  | cons m ms ih =>
    intro b hb
    rw [List.foldl_cons]
    apply ih
    simp only [methodStep]
    split_ifs with hc
    · exact le_of_lt (lt_of_le_of_lt hb hc)
    · exact hb

/-- Helper: the running confidence of the matching loop stays at most 1 when
every method confidence does. -/
theorem foldl_methodStep_conf_le_one (searchImg tmpl : GrayImg) :
    ∀ (l : List TMMethod) (b : BestState), b.conf ≤ 1 →
      (l.foldl (methodStep searchImg tmpl) b).conf ≤ 1 := by
  intro l
  induction l with
  | nil => intro b hb; exact hb
  | cons m ms ih =>
    intro b hb
    rw [List.foldl_cons]
    apply ih
    simp only [methodStep]
    split_ifs with hc
    · exact methodConf_le_one m searchImg tmpl
    · exact hb

/-- Helper: the raw best-of-three confidence is in `[0, 1]`. -/
theorem runMethods_conf_bounds (searchImg tmpl : GrayImg) :
    0 ≤ (runMethods searchImg tmpl).conf ∧ (runMethods searchImg tmpl).conf ≤ 1 :=
  ⟨foldl_methodStep_conf_nonneg searchImg tmpl methodsList _ le_rfl,
   foldl_methodStep_conf_le_one searchImg tmpl methodsList _ zero_le_one⟩

/-- Helper: every branch of the confidence adjustment keeps a raw confidence
from `[0, 1]` inside `[0, 1]`. -/
theorem adjustConfidence_mem_unit (hT wT hS wS : Nat) (raw sr : ℝ)
    (h0 : 0 ≤ raw) (h1 : raw ≤ 1) :
    0 ≤ adjustConfidence hT wT hS wS raw sr ∧ adjustConfidence hT wT hS wS raw sr ≤ 1 := by
  unfold adjustConfidence
  split_ifs with hA hB hC hD hE
  · exact ⟨zero_le_one, le_rfl⟩
  · constructor
    · exact le_min (by norm_num) (by linarith)
    · exact le_trans (min_le_left _ _) (by norm_num)
  · constructor <;> linarith
  · exact ⟨h0, h1⟩
  · constructor <;> linarith
  · exact ⟨h0, h1⟩

/-- C2: for every pair of decodable inputs and every branch of the
confidence-adjustment logic, a successful `compare_images` result carries a
confidence inside the closed interval `[0, 1]`. -/
theorem compare_images_confidence_unit_interval (tOpt sOpt : Option ColorImg) (res : MatchOk)
    (hok : compare_images tOpt sOpt = CompareResult.ok res) :
    0 ≤ res.confidence ∧ res.confidence ≤ 1 := by
  match tOpt, sOpt with
  | none, _ => exact CompareResult.noConfusion hok
  | some _, none => exact CompareResult.noConfusion hok
  | some t, some s =>
    simp only [compare_images] at hok
    split_ifs at hok with hid hfit
    · obtain rfl := (CompareResult.ok.inj hok).symm
      norm_num
    · cases hloc : (runMethods (cvtColorBGR2GRAY s) (cvtColorBGR2GRAY t)).loc with
      | none =>
        rw [hloc] at hok
        exact CompareResult.noConfusion hok
      | some loc =>
        rw [hloc] at hok
        obtain rfl := (CompareResult.ok.inj hok).symm
        exact adjustConfidence_mem_unit _ _ _ _ _ _
          (runMethods_conf_bounds (cvtColorBGR2GRAY s) (cvtColorBGR2GRAY t)).1
          (runMethods_conf_bounds (cvtColorBGR2GRAY s) (cvtColorBGR2GRAY t)).2

/-- Witness for C2: the concrete self-comparison result has confidence in
`[0, 1]`. -/
theorem compare_images_confidence_unit_interval_witness :
    0 ≤ samplePerfect.confidence ∧ samplePerfect.confidence ≤ 1 :=
  compare_images_confidence_unit_interval (some sampleImgA) (some sampleImgA) samplePerfect
    compare_images_sample_eval

end StreamDetection
